import Mathlib

/-!
Verification of the wallet identity core (`src/wallet/wallet.js`) of the
js-sdk repository.  The `Wallet` class is embedded shallowly: its mutable
instance state becomes the `Wallet` structure, every method becomes a pure
function returning the new state together with an `Except` result, and the
ambient randomness (fresh salts, the system clock) is passed in explicitly
as arguments.  The crypto module (`src/wallet/crypto.js`) and the base
`Keypair`/`hash` utilities are not present under `src/`, so they are
modelled from the spec (symbolic ideal-crypto style), as marked on each
definition.
-/

/-- Modelled from the spec: KDF parameters are "opaque configuration passed
through, never interpreted by the core" — represented as an opaque string. -/
structure KdfParams where
  params : String
deriving DecidableEq

/-- Modelled from the spec: the master key produced by
`crypto.calculateMasterKey` (missing `src/wallet/crypto.js`).  The KDF is a
deterministic "canonical concatenation/keying of salt, email, and password
under kdfParams", so the master key is modelled symbolically as the tuple of
its inputs. -/
structure MasterKey where
  salt : String
  email : String
  password : String
  kdfParams : KdfParams
deriving DecidableEq

/-- Modelled from the spec: `crypto.calculateMasterKey(salt, email, password,
kdfParams)` — deterministic, pure. -/
def calculateMasterKey (salt email password : String) (kdfParams : KdfParams) :
    MasterKey :=
  ⟨salt, email, password, kdfParams⟩

/-- Modelled from the spec: the wallet-id sub-key derived by
`crypto.deriveWalletId` — a deterministic one-way derivation from the master
key, distinct in type from the encryption sub-key. -/
structure WalletIdBits where
  source : MasterKey
deriving DecidableEq

/-- Modelled from the spec: the wallet-encryption sub-key derived by
`crypto.deriveWalletKey`. -/
structure WalletKey where
  source : MasterKey
deriving DecidableEq

/-- Modelled from the spec: `crypto.deriveWalletId(masterKey)`. -/
def deriveWalletId (m : MasterKey) : WalletIdBits := ⟨m⟩

/-- Modelled from the spec: `crypto.deriveWalletKey(masterKey)`. -/
def deriveWalletKey (m : MasterKey) : WalletKey := ⟨m⟩

/-- Modelled from the spec: the key pair supplied by the base library
(`Keypair` is imported from `../base`, whose implementation is not under
`src/`).  Held symbolically by its secret seed. -/
structure Keypair where
  seed : String
deriving DecidableEq

/-- Modelled from the spec: `Keypair.fromSecret` parses a secret seed. -/
def Keypair.fromSecret (s : String) : Keypair := ⟨s⟩

/-- Modelled from the spec: `keypair.secret()` returns the secret seed. -/
def Keypair.secret (kp : Keypair) : String := kp.seed

/-- Modelled from the spec: `keypair.accountId()` — the "public-key-derived
address" of the pair, modelled as the seed tagged with a public-key marker. -/
def Keypair.accountId (kp : Keypair) : String := ⟨'G' :: kp.seed.data⟩

/-- Modelled from the spec: the `Keypair.isValidPublicKey` validator — account
ids are strings in the public-address format. -/
def Keypair.isValidPublicKey (s : String) : Bool :=
  match s.data with
  | [] => false
  | c :: _ => c == 'G'

/-- Modelled from the spec: the `Keypair.isValidSecretKey` validator. -/
def Keypair.isValidSecretKey (s : String) : Bool :=
  match s.data with
  | [] => false
  | c :: _ => c == 'S'

/-- Modelled from the spec: the strict-JSON payload of the keychain, "exactly
the keys `accountId` and `seed`". -/
structure KeychainJson where
  accountId : String
  seed : String
deriving DecidableEq

/-- Modelled from the spec: the JSON text channel between `JSON.stringify`
and `JSON.parse` (external builtins).  A value is either the serialization of
a well-formed keychain object or some other plain text. -/
inductive JText where
  | json (kc : KeychainJson)
  | plain (s : String)
deriving DecidableEq

/-- Modelled from the spec: `JSON.stringify({accountId, seed})`. -/
def jsonStringifyKeychain (kc : KeychainJson) : JText := .json kc

/-- Modelled from the spec: `JSON.parse` followed by field access; a payload
that is not a well-formed keychain object is a `KeychainFormatError`. -/
def jsonParseKeychain (t : JText) : Except String KeychainJson :=
  match t with
  | .json kc => .ok kc
  | .plain _ => .error "KeychainFormatError"

/-- Modelled from the spec: authenticated ciphertext produced by
`crypto.encryptData` — symbolically, the plaintext together with the key it
was sealed under. -/
structure Ciphertext where
  payload : JText
  sealedWith : WalletKey
deriving DecidableEq

/-- Modelled from the spec: `crypto.encryptData(plaintext, walletKey)`. -/
def encryptData (plaintext : JText) (key : WalletKey) : Ciphertext :=
  ⟨plaintext, key⟩

/-- Modelled from the spec: `crypto.decryptData` uses an authenticated mode —
"a decryption with the wrong key or corrupted ciphertext fails", never
returning silent garbage. -/
def decryptData (ct : Ciphertext) (key : WalletKey) : Except String JText :=
  if ct.sealedWith = key then .ok ct.payload
  else .error "DecryptionError"

/-- The sixteen hexadecimal digit characters, built from their code points
(48-57 for the decimal digits, 97-102 for the lowercase letters). -/
def hexChars : List Char :=
  (List.range 10).map (fun n => Char.ofNat (48 + n))
    ++ (List.range 6).map (fun n => Char.ofNat (97 + n))

/-- Two hex digits for one character of the serialized master key. -/
def charHex (c : Char) : List Char :=
  [hexChars.getD (c.toNat / 16 % 16) '0', hexChars.getD (c.toNat % 16) '0']

/-- Serialize a master key to a character stream (symbolic bit string). -/
def masterKeySerial (m : MasterKey) : List Char :=
  m.salt.data ++ ':' :: m.email.data ++ ':' :: m.password.data
    ++ ':' :: m.kdfParams.params.data

/-- Modelled from the spec: `sjcl.codec.hex.fromBits` — the hex encoding of
the derived wallet-id bits ("walletId: a hex-encoded identifier"). -/
def hexFromBits (b : WalletIdBits) : String :=
  ⟨(masterKeySerial b.source).foldr (fun c acc => charHex c ++ acc) []⟩

/-- Modelled from the spec: the `hash` function imported from `../base` —
"fixed-size, deterministic, collision-resistant", modelled symbolically. -/
structure Digest where
  preimage : String
deriving DecidableEq

/-- Modelled from the spec: `hash(bytes) -> digest`. -/
def hashOf (s : String) : Digest := ⟨s⟩

/-- Modelled from the spec: a decorated signature produced by
`keypair.signDecorated(digest)`. -/
structure DecoratedSignature where
  payload : Digest
  signer : Keypair
deriving DecidableEq

/-- Modelled from the spec: `keypair.signDecorated(data)`. -/
def Keypair.signDecorated (kp : Keypair) (d : Digest) : DecoratedSignature :=
  ⟨d, kp⟩

/-- Modelled from the spec: `signature.toXDR(base64)` — the base64 rendering
of the decorated signature, modelled as a deterministic symbolic encoding. -/
def DecoratedSignature.toXDRbase64 (sig : DecoratedSignature) : String :=
  "B64(" ++ sig.payload.preimage ++ "|" ++ Keypair.accountId sig.signer ++ ")"

/-- One decimal digit character, mirroring the shape of `Nat.digitChar`. -/
def decDigit (n : Nat) : Char :=
  match n with
  | 0 => '0'
  | 1 => '1'
  | 2 => '2'
  | 3 => '3'
  | 4 => '4'
  | 5 => '5'
  | 6 => '6'
  | 7 => '7'
  | 8 => '8'
  | 9 => '9'
  | _ => '*'

/-- Fuelled accumulator loop rendering a natural number in decimal
(kernel-reducible counterpart of the recursion below). -/
def natDecCore : Nat → Nat → List Char → List Char
  | 0, _, ds => ds
  | fuel + 1, n, ds =>
    if n / 10 = 0 then decDigit (n % 10) :: ds
    else natDecCore fuel (n / 10) (decDigit (n % 10) :: ds)

/-- Decimal digits of a natural number. -/
def natDec (n : Nat) : List Char := natDecCore (n + 1) n []

/-- Fuelled non-accumulator decimal rendering, used for proofs. -/
def natDecF : Nat → Nat → List Char
  | 0, _ => []
  | fuel + 1, n =>
    if n < 10 then [decDigit n] else natDecF fuel (n / 10) ++ [decDigit (n % 10)]

/-- Modelled from the spec: the JS builtin `Number.prototype.toString` used on
the integral `validUntil` timestamp — standard decimal rendering. -/
def intDec (v : Int) : List Char :=
  match v with
  | .ofNat n => natDec n
  | .negSucc n => '-' :: natDec (n + 1)

/-- `intDec` packaged as a string. -/
def intDecStr (v : Int) : String := ⟨intDec v⟩

/-- The apostrophe character used as delimiter in the signature base. -/
def apos : Char := Char.ofNat 39

/-- Leading characters of the signature base template (an opening brace,
then a space, then the text before the URI, ending in an apostrophe). -/
def sbHead : List Char := [Char.ofNat 123, ' ', 'u', 'r', 'i', ':', ' ', apos]

/-- Middle characters of the signature base template, between the URI and the
timestamp (the misspelling of the field name is the source's own). -/
def sbMid : List Char :=
  [apos, ',', ' ', 'v', 'a', 'l', 'i', 'd', '_', 'u', 'n', 't', 'i', 'l', 'l',
   ':', ' ', apos]

/-- Trailing characters of the signature base template (a closing apostrophe
and a closing brace). -/
def sbTail : List Char := [apos, Char.ofNat 125]

/-- The canonical signing payload built by `signRequest` (wallet.js line
191): the template string interpolating the URI and the rendered
`validUntil` timestamp. -/
def signatureBase (uri : String) (validUntil : Int) : String :=
  ⟨sbHead ++ uri.data ++ sbMid ++ intDec validUntil ++ sbTail⟩

/-- A JavaScript value in an argument position where the source inspects the
dynamic type with lodash `isNil` / `isString` / `isNumber`. -/
inductive JsVal where
  | nullv
  | str (s : String)
  | num (q : ℚ)
deriving DecidableEq

/-- lodash `isString` on a `JsVal`. -/
def JsVal.isString : JsVal → Bool
  | .str _ => true
  | _ => false

/-- lodash `isNumber` on a `JsVal`. -/
def JsVal.isNumber : JsVal → Bool
  | .num _ => true
  | _ => false

/-- The keypair argument of the `Wallet` constructor: the source accepts a
`Keypair` instance or a secret-seed string, both after a nil check. -/
inductive KeypairArg where
  | nil
  | seedStr (s : String)
  | inst (kp : Keypair)
deriving DecidableEq

/-- The optional `walletId` argument of the `Wallet` constructor: absent
(undefined), a string, or some truthy non-string value. -/
inductive WalletIdArg where
  | absent
  | str (s : String)
  | nonStringTruthy
deriving DecidableEq

/-- The `Wallet` instance state (wallet.js lines 48-52): `_email`,
`_keypair`, `_accountId`, `_id` (the optional wallet id) and `_clockDiff`
(seconds, rational, since JS computes `Date.now() / 1000`). -/
structure Wallet where
  _email : String
  _keypair : Keypair
  _accountId : String
  _id : Option String
  _clockDiff : ℚ
deriving DecidableEq

/-- The tail of the `Wallet` constructor after the keypair argument has been
resolved to a `Keypair` (wallet.js lines 40-52): account-id validation,
wallet-id check, and field assignment. -/
def Wallet.createChecked (e : String) (kp : Keypair) (accountId : String)
    (walletId : WalletIdArg) : Except String Wallet :=
  if Keypair.isValidPublicKey accountId then
    match walletId with
    | .nonStringTruthy => .error "Hex encoded wallet ID expected."
    | .absent => .ok ⟨e, kp, accountId, none, 0⟩
    | .str s => .ok ⟨e, kp, accountId, some s, 0⟩
  else .error "Invalid account ID."

/-- The `Wallet` constructor (wallet.js lines 24-53): nil check on the email,
nil/string/instance dispatch on the keypair, then syntactic validation of the
account id and a string check on a truthy `walletId`. -/
def Wallet.create : Option String → KeypairArg → String → WalletIdArg →
    Except String Wallet
  | none, _, _, _ => .error "Email is required."
  | some _, .nil, _, _ => .error "No keypair provided."
  | some e, .seedStr s, accountId, walletId =>
    if Keypair.isValidSecretKey s then
      Wallet.createChecked e (Keypair.fromSecret s) accountId walletId
    else .error "Invalid secret seed."
  | some e, .inst kp, accountId, walletId =>
    Wallet.createChecked e kp accountId walletId

/-- `Wallet.generate(email)` (wallet.js lines 61-69); the fresh random
keypair is passed in explicitly. -/
def Wallet.generate (email : Option String) (keypair : Keypair) :
    Except String Wallet :=
  Wallet.create email (.inst keypair) (Keypair.accountId keypair) .absent

/-- `Wallet.fromEncrypted(keychainData, kdfParams, salt, email, password)`
(wallet.js lines 80-99). -/
def Wallet.fromEncrypted (keychainData : Ciphertext) (kdfParams : KdfParams)
    (salt email password : String) : Except String Wallet :=
  let rawMasterKey := calculateMasterKey salt email password kdfParams
  let rawWalletId := deriveWalletId rawMasterKey
  let rawWalletKey := deriveWalletKey rawMasterKey
  match decryptData keychainData rawWalletKey with
  | .error e => .error e
  | .ok plain =>
    match jsonParseKeychain plain with
    | .error e => .error e
    | .ok kc =>
      Wallet.create (some email) (.inst (Keypair.fromSecret kc.seed))
        kc.accountId (.str (hexFromBits rawWalletId))

/-- `Wallet.deriveId(email, password, kdfParams, salt)` (wallet.js lines
131-136). -/
def Wallet.deriveId (email password : String) (kdfParams : KdfParams)
    (salt : String) : String :=
  let masterKey := calculateMasterKey salt email password kdfParams
  let walletId := deriveWalletId masterKey
  hexFromBits walletId

/-- `Wallet.fromRecoverySeed(kdfParams, salt, email, recoverySeed)`
(wallet.js lines 109-119). -/
def Wallet.fromRecoverySeed (kdfParams : KdfParams) (salt email recoverySeed : String) :
    Except String Wallet :=
  let recoveryKeypair := Keypair.fromSecret recoverySeed
  let walletId := Wallet.deriveId email recoverySeed kdfParams salt
  Wallet.create (some email) (.inst recoveryKeypair)
    (Keypair.accountId recoveryKeypair) (.str walletId)

/-- The `id` getter (wallet.js lines 141-147): `if (!this._id) throw`, so an
absent wallet id and an empty-string wallet id both throw. -/
def Wallet.id (w : Wallet) : Except String String :=
  match w._id with
  | none => .error "This wallet has no wallet ID yet."
  | some s =>
    if s = "" then .error "This wallet has no wallet ID yet."
    else .ok s

/-- The `accountId` getter (wallet.js lines 152-154). -/
def Wallet.accountId (w : Wallet) : String := w._accountId

/-- The `email` getter (wallet.js lines 159-161). -/
def Wallet.email (w : Wallet) : String := w._email

/-- The `secretSeed` getter (wallet.js lines 166-168). -/
def Wallet.secretSeed (w : Wallet) : String := w._keypair.secret

/-- The headers returned by `signRequest` (wallet.js lines 196-202). -/
structure AuthHeaders where
  validUntilTimestamp : String
  publicKey : String
  signature : String
deriving DecidableEq

/-- `wallet.signRequest(uri)` (wallet.js lines 183-203).  The current time
`now` (seconds, as the JS rational `Date.now() / 1000`) is passed in
explicitly; `_getTimestamp` (lines 281-283) is inlined as
`⌊now⌋ - _clockDiff`, and `validUntil = ⌊_getTimestamp() + 60⌋`.  The method
never mutates the wallet, so the input state is returned unchanged. -/
def Wallet.signRequest (w : Wallet) (uri : String) (now : ℚ) :
    Wallet × Except String AuthHeaders :=
  if uri = "" then (w, .error "URI required.")
  else
    let ts : ℚ := ((⌊now⌋ : ℤ) : ℚ) - w._clockDiff
    let validUntil : ℤ := ⌊ts + 60⌋
    let base := signatureBase uri validUntil
    let data := hashOf base
    let sig := w._keypair.signDecorated data
    (w, .ok ⟨intDecStr validUntil, Keypair.accountId w._keypair,
             sig.toXDRbase64⟩)

/-- The artifact returned by `encrypt` (wallet.js lines 243-249). -/
structure EncryptedKeychain where
  id : String
  accountId : String
  email : String
  salt : String
  keychainData : Ciphertext
deriving DecidableEq

/-- `wallet.encrypt(kdfParams, password)` (wallet.js lines 212-250).  The
fresh random salt (`crypto.randomBytes(16).toString(base64)`) is passed in
explicitly.  On success the wallet id is stored onto the wallet (line 241),
so the new state is returned with the result. -/
def Wallet.encrypt (w : Wallet) : Option KdfParams → JsVal → String →
    Wallet × Except String EncryptedKeychain
  | none, _, _ => (w, .error "KDF params required")
  | some kdf, .str p, salt =>
    if p.length = 0 then (w, .error "Password must be a non-empty string")
    else
      let masterKey := calculateMasterKey salt w._email p kdf
      let walletKey := deriveWalletKey masterKey
      let rawKeychainData : KeychainJson := ⟨w._accountId, w._keypair.secret⟩
      let keychainData := encryptData (jsonStringifyKeychain rawKeychainData) walletKey
      let rawWalletId := deriveWalletId masterKey
      let newId := hexFromBits rawWalletId
      ({ w with _id := some newId },
       .ok ⟨newId, w._accountId, w._email, salt, keychainData⟩)
  | some _, .nullv, _ => (w, .error "Password must be a non-empty string")
  | some _, .num _, _ => (w, .error "Password must be a non-empty string")

/-- `wallet.encryptRecoveryData(kdfParams, recoveryKeypair)` (wallet.js lines
258-266): builds a throwaway wallet sharing this wallet's keypair but framed
with the recovery keypair's account id, and encrypts it under the recovery
seed as password.  The throwaway wallet's mutation is discarded; `this` is
never mutated. -/
def Wallet.encryptRecoveryData (w : Wallet) (kdfParams : Option KdfParams)
    (recoveryKeypair : Keypair) (salt : String) :
    Wallet × Except String EncryptedKeychain :=
  match Wallet.create (some w._email) (.inst w._keypair)
      (Keypair.accountId recoveryKeypair) .absent with
  | .error e => (w, .error e)
  | .ok recoveryWallet =>
    (w, (recoveryWallet.encrypt kdfParams (.str recoveryKeypair.secret) salt).2)

/-- `wallet.synchronizeTime(timestamp)` (wallet.js lines 273-279).  The
current time `now` (seconds, rational) is passed in explicitly. -/
def Wallet.synchronizeTime (w : Wallet) (timestamp : JsVal) (now : ℚ) :
    Wallet × Except String Unit :=
  match timestamp with
  | .num t => ({ w with _clockDiff := now - t }, .ok ())
  | _ => (w, .error "Invalid timestamp. A UNIX timestamp in seconds expected.")

/-- The `validUntil` formula as the spec states it (refinement comparison for
the request-signing claim): `floor(now() - clockOffset) + 60`, with `now()`
the raw fractional clock reading. -/
def specValidUntil (now : ℚ) (clockOffset : ℚ) : ℤ :=
  ⌊now - clockOffset⌋ + 60

/-- Projection used to observe the `validUntil` header of a `signRequest`
result. -/
def headerValidUntil (r : Except String AuthHeaders) : Option String :=
  match r with
  | .ok h => some h.validUntilTimestamp
  | .error _ => none

/-- Success predicate on the resolved keypair argument of the constructor,
used to characterize when construction succeeds. -/
def KeypairArg.resolves : KeypairArg → Prop
  | .nil => False
  | .seedStr s => Keypair.isValidSecretKey s = true
  | .inst _ => True

instance : DecidablePred KeypairArg.resolves := by
  intro k
  cases k <;> simp [KeypairArg.resolves] <;> infer_instance

/-- A concrete wallet used by witnesses: a valid account id matching a small
keypair, no wallet id, zero clock offset. -/
def wEx : Wallet := ⟨"e", ⟨"S"⟩, "GS", none, 0⟩

/-- Concrete KDF parameters used by witnesses. -/
def kdfEx : KdfParams := ⟨"k"⟩

/-- Reverse of the middle template segment, without its leading apostrophe. -/
def sbMidRevTail : List Char :=
  [' ', ':', 'l', 'l', 'i', 't', 'n', 'u', '_', 'd', 'i', 'l', 'a', 'v', ' ',
   ',', apos]

/-- A throwaway keypair used in concrete counterexamples. -/
def kpA : Keypair := ⟨"SA"⟩

/-- A junk artifact used only as a `getD` default when projecting a known-ok
encryption result in witnesses. -/
def artJunk : EncryptedKeychain :=
  ⟨"", "", "", "", encryptData (.json ⟨"", ""⟩)
    (deriveWalletKey (calculateMasterKey "" "" "" ⟨""⟩))⟩

/-- The example wallet after one encryption under salt `A` (its wallet id is
now set). -/
def wA : Wallet := (wEx.encrypt (some kdfEx) (.str "p") "A").1

/-- The example wallet after synchronizing with server time 10 at local
clock reading 21/2 seconds, leaving a fractional clock offset of 1/2. -/
def wHalf : Wallet := (wEx.synchronizeTime (.num 10) (21 / 2 : ℚ)).1

/-- The artifact produced by the example wallet's first encryption. -/
def artA : EncryptedKeychain :=
  (wEx.encrypt (some kdfEx) (.str "p") "A").2.toOption.getD artJunk

/-- A concrete recovery keypair. -/
def rEx : Keypair := ⟨"SR"⟩

/-- The recovery artifact produced by the example wallet for `rEx`. -/
def artR : EncryptedKeychain :=
  (wEx.encryptRecoveryData (some kdfEx) rEx "t").2.toOption.getD artJunk

/-! ### Properties of the decimal rendering -/

theorem decDigit_ne (n : Nat) : decDigit n ≠ apos ∧ decDigit n ≠ '-' := by
  unfold decDigit
  split <;> exact ⟨by decide, by decide⟩

theorem decDigit_inj_lt : ∀ a < 10, ∀ b < 10, decDigit a = decDigit b → a = b := by
  decide

theorem natDecF_chars :
    ∀ f n, n < f → ∀ c ∈ natDecF f n, c ≠ apos ∧ c ≠ '-' := by
  intro f
  induction f with
  | zero => intro n hn; omega
  | succ f ih =>
    intro n _ c hc
    simp only [natDecF] at hc
    by_cases h10 : n < 10
    · simp [h10] at hc
      exact hc ▸ decDigit_ne n
    · have hdiv : n / 10 < n := Nat.div_lt_self (by omega) (by omega)
      simp [h10] at hc
      rcases hc with h | h
      · exact ih (n / 10) (by omega) c h
      · exact h ▸ decDigit_ne (n % 10)

theorem natDecF_ne_nil : ∀ f n, n < f → natDecF f n ≠ [] := by
  intro f
  induction f with
  | zero => intro n hn; omega
  | succ f _ =>
    intro n _
    simp only [natDecF]
    by_cases h10 : n < 10 <;> simp [h10]

theorem natDecF_inj :
    ∀ f, ∀ m, m < f → ∀ g n, n < g → natDecF f m = natDecF g n → m = n := by
  intro f
  induction f with
  | zero => intro m hm; omega
  | succ f ih =>
    intro m hm g n hn h
    cases g with
    | zero => omega
    | succ g =>
      simp only [natDecF] at h
      by_cases hm10 : m < 10 <;> by_cases hn10 : n < 10
      · simp [hm10, hn10] at h
        exact decDigit_inj_lt m hm10 n hn10 h
      · exfalso
        have hd : n / 10 < n := Nat.div_lt_self (by omega) (by omega)
        simp only [if_pos hm10, if_neg hn10] at h
        have hlen := congrArg List.length h
        have hpos : 0 < (natDecF g (n / 10)).length :=
          List.length_pos.mpr (natDecF_ne_nil g (n / 10) (by omega))
        simp only [List.length_append, List.length_cons, List.length_nil] at hlen
        omega
      · exfalso
        have hd : m / 10 < m := Nat.div_lt_self (by omega) (by omega)
        simp only [if_neg hm10, if_pos hn10] at h
        have hlen := congrArg List.length h
        have hpos : 0 < (natDecF f (m / 10)).length :=
          List.length_pos.mpr (natDecF_ne_nil f (m / 10) (by omega))
        simp only [List.length_append, List.length_cons, List.length_nil] at hlen
        omega
      · have hdm : m / 10 < m := Nat.div_lt_self (by omega) (by omega)
        have hdn : n / 10 < n := Nat.div_lt_self (by omega) (by omega)
        simp [hm10, hn10] at h
        obtain ⟨h1, h2⟩ := List.append_inj' h (by simp)
        have hq := ih (m / 10) (by omega) g (n / 10) (by omega) h1
        have hr := decDigit_inj_lt (m % 10) (Nat.mod_lt _ (by omega))
          (n % 10) (Nat.mod_lt _ (by omega)) (by simpa using h2)
        omega

theorem natDecCore_eq :
    ∀ f n ds, n < f → natDecCore f n ds = natDecF f n ++ ds := by
  intro f
  induction f with
  | zero => intro n ds hn; omega
  | succ f ih =>
    intro n ds hn
    simp only [natDecCore, natDecF]
    by_cases h0 : n / 10 = 0
    · have h10 : n < 10 := (Nat.div_eq_zero_iff (by omega)).mp h0
      simp [h0, h10, Nat.mod_eq_of_lt h10]
    · have h10 : ¬ n < 10 := fun hc =>
        h0 ((Nat.div_eq_zero_iff (by omega)).mpr hc)
      have hd : n / 10 < n := Nat.div_lt_self (by omega) (by omega)
      simp [h0, h10, ih (n / 10) (decDigit (n % 10) :: ds) (by omega)]

theorem natDec_eq (n : Nat) : natDec n = natDecF (n + 1) n := by
  simpa [natDec] using natDecCore_eq (n + 1) n [] (by omega)

theorem natDec_inj {m n : Nat} (h : natDec m = natDec n) : m = n :=
  natDecF_inj (m + 1) m (by omega) (n + 1) n (by omega)
    (by rw [← natDec_eq, ← natDec_eq]; exact h)

theorem natDec_chars {n : Nat} {c : Char} (hc : c ∈ natDec n) :
    c ≠ apos ∧ c ≠ '-' :=
  natDecF_chars (n + 1) n (by omega) c (natDec_eq n ▸ hc)

theorem natDec_ne_nil (n : Nat) : natDec n ≠ [] := by
  rw [natDec_eq]
  exact natDecF_ne_nil (n + 1) n (by omega)

theorem intDec_chars {v : Int} {c : Char} (hc : c ∈ intDec v) : c ≠ apos := by
  cases v with
  | ofNat n => exact (natDec_chars hc).1
  | negSucc n =>
    simp only [intDec, List.mem_cons] at hc
    rcases hc with h | h
    · exact h ▸ (by decide)
    · exact (natDec_chars h).1

theorem intDec_inj {v w : Int} (h : intDec v = intDec w) : v = w := by
  cases v with
  | ofNat m =>
    cases w with
    | ofNat n => exact congrArg Int.ofNat (natDec_inj h)
    | negSucc n =>
      exfalso
      have : '-' ∈ natDec m := by
        rw [show natDec m = intDec (Int.ofNat m) from rfl, h]
        simp [intDec]
      exact (natDec_chars this).2 rfl
  | negSucc m =>
    cases w with
    | ofNat n =>
      exfalso
      have : '-' ∈ natDec n := by
        rw [show natDec n = intDec (Int.ofNat n) from rfl, ← h]
        simp [intDec]
      exact (natDec_chars this).2 rfl
    | negSucc n =>
      have h2 : natDec (m + 1) = natDec (n + 1) := by simpa [intDec] using h
      have h3 := natDec_inj h2
      exact congrArg Int.negSucc (by omega)

/-! ### Splitting a character stream at a reserved delimiter -/

theorem split_at_apos :
    ∀ (a a' rest rest' : List Char),
      (∀ c ∈ a, c ≠ apos) → (∀ c ∈ a', c ≠ apos) →
      a ++ apos :: rest = a' ++ apos :: rest' → a = a' ∧ rest = rest' := by
  intro a
  induction a with
  | nil =>
    intro a' rest rest' _ ha' h
    cases a' with
    | nil => simpa using h
    | cons y t =>
      exfalso
      simp only [List.nil_append, List.cons_append, List.cons.injEq] at h
      exact ha' y (by simp) h.1.symm
  | cons x s ih =>
    intro a' rest rest' ha ha' h
    cases a' with
    | nil =>
      exfalso
      simp only [List.nil_append, List.cons_append, List.cons.injEq] at h
      exact ha x (by simp) h.1
    | cons y t =>
      simp only [List.cons_append, List.cons.injEq] at h
      obtain ⟨h1, h2⟩ := ih t rest rest'
        (fun c hc => ha c (by simp [hc])) (fun c hc => ha' c (by simp [hc])) h.2
      exact ⟨by rw [h.1, h1], h2⟩

theorem sbMid_reverse : sbMid.reverse = apos :: sbMidRevTail := by decide

/-- C7: the signed canonical request payload is injective in
(uri, validUntil): if the signature-base byte sequences built by
`signRequest` for two pairs agree, the URIs and the integral timestamps
agree.  (The rendered timestamp contains no apostrophe, so the apostrophe
closing the URI field is recoverable from the right.) -/
theorem c7_signature_base_injective (u1 u2 : String) (v1 v2 : Int)
    (h : signatureBase u1 v1 = signatureBase u2 v2) : u1 = u2 ∧ v1 = v2 := by
  have hl : sbHead ++ u1.data ++ sbMid ++ intDec v1 ++ sbTail
      = sbHead ++ u2.data ++ sbMid ++ intDec v2 ++ sbTail :=
    congrArg String.data h
  simp only [List.append_assoc] at hl
  have h2 := List.append_cancel_left hl
  have h3 := congrArg List.reverse h2
  simp only [List.reverse_append, List.append_assoc] at h3
  have h4 := List.append_cancel_left h3
  rw [sbMid_reverse, List.cons_append, List.cons_append] at h4
  obtain ⟨hA, hR⟩ := split_at_apos _ _ _ _
    (fun c hc => intDec_chars (List.mem_reverse.mp hc))
    (fun c hc => intDec_chars (List.mem_reverse.mp hc)) h4
  refine ⟨?_, intDec_inj (List.reverse_injective hA)⟩
  have h5 := List.append_cancel_left hR
  have h6 := List.reverse_injective h5
  cases u1
  cases u2
  exact congrArg String.mk h6

/-- Witness for the signature-base injectivity theorem at a concrete pair. -/
theorem c7_signature_base_injective_witness : "a" = "a" ∧ (5 : Int) = 5 :=
  c7_signature_base_injective "a" "a" 5 5 rfl

/-! ### Constructor and encryption equation facts -/

theorem accountId_valid (kp : Keypair) :
    Keypair.isValidPublicKey (Keypair.accountId kp) = true := rfl

theorem createChecked_ok_elim {e : String} {kp : Keypair} {acc : String}
    {wid : WalletIdArg} {w : Wallet}
    (h : Wallet.createChecked e kp acc wid = .ok w) :
    Keypair.isValidPublicKey acc = true
      ∧ w._email = e ∧ w._keypair = kp ∧ w._accountId = acc := by
  unfold Wallet.createChecked at h
  by_cases hv : Keypair.isValidPublicKey acc = true
  · rw [if_pos hv] at h
    cases wid with
    | nonStringTruthy => exact Except.noConfusion h
    | absent =>
      injection h with h2
      exact ⟨hv, h2 ▸ rfl, h2 ▸ rfl, h2 ▸ rfl⟩
    | str s =>
      injection h with h2
      exact ⟨hv, h2 ▸ rfl, h2 ▸ rfl, h2 ▸ rfl⟩
  · rw [if_neg hv] at h
    exact Except.noConfusion h

theorem create_ok_elim {email : Option String} {karg : KeypairArg}
    {acc : String} {wid : WalletIdArg} {w : Wallet}
    (h : Wallet.create email karg acc wid = .ok w) :
    Keypair.isValidPublicKey acc = true ∧ w._accountId = acc := by
  cases email with
  | none => exact Except.noConfusion h
  | some e =>
    cases karg with
    | nil => exact Except.noConfusion h
    | seedStr s =>
      simp only [Wallet.create] at h
      by_cases hs : Keypair.isValidSecretKey s = true
      · rw [if_pos hs] at h
        obtain ⟨hv, _, _, hacc⟩ := createChecked_ok_elim h
        exact ⟨hv, hacc⟩
      · rw [if_neg hs] at h
        exact Except.noConfusion h
    | inst kp =>
      obtain ⟨hv, _, _, hacc⟩ := createChecked_ok_elim h
      exact ⟨hv, hacc⟩

theorem encrypt_str_eq (w : Wallet) (kdf : KdfParams) (p salt : String)
    (hp : ¬ p.length = 0) :
    w.encrypt (some kdf) (.str p) salt
      = ({ w with _id := some (Wallet.deriveId w._email p kdf salt) },
         .ok ⟨Wallet.deriveId w._email p kdf salt, w._accountId, w._email, salt,
              encryptData (.json ⟨w._accountId, w._keypair.secret⟩)
                (deriveWalletKey (calculateMasterKey salt w._email p kdf))⟩) := by
  simp only [Wallet.encrypt]
  rw [if_neg hp]
  rfl

theorem encryptRecoveryData_eq (w : Wallet) (kdfO : Option KdfParams)
    (r : Keypair) (salt : String) :
    w.encryptRecoveryData kdfO r salt
      = (w, ((⟨w._email, w._keypair, Keypair.accountId r, none, 0⟩ : Wallet).encrypt
          kdfO (.str (Keypair.secret r)) salt).2) := rfl

/-! ### C3: account-id consistency -/

/-- C3 counterexample: the constructor accepts a wallet whose account id is
syntactically valid yet different from the keypair's public address — the
code (wallet.js line 40) validates only the format, so "the constructor
rejects any mismatch" is false. -/
theorem c3_mismatch_counterexample :
    Wallet.create (some "e") (.inst kpA) "GOTHER" .absent
        = .ok ⟨"e", kpA, "GOTHER", none, 0⟩
      ∧ Wallet.accountId ⟨"e", kpA, "GOTHER", none, 0⟩ ≠ Keypair.accountId kpA :=
  ⟨rfl, by decide⟩

/-- C3 (amended): every successfully constructed wallet has a syntactically
valid account id and a syntactically invalid one is rejected; but agreement
between the account id and the keypair is never checked, and
`encryptRecoveryData` deliberately encrypts under a wallet whose account id
is the recovery keypair's address while the sealed seed remains the primary
wallet's secret. -/
theorem c3_account_id_validation :
    (∀ (email : Option String) (karg : KeypairArg) (acc : String)
        (wid : WalletIdArg) (w : Wallet),
        Wallet.create email karg acc wid = .ok w →
          Keypair.isValidPublicKey w._accountId = true)
    ∧ (∀ (email : Option String) (karg : KeypairArg) (acc : String)
        (wid : WalletIdArg) (w : Wallet),
        Keypair.isValidPublicKey acc = false →
          Wallet.create email karg acc wid ≠ .ok w)
    ∧ (∀ (w : Wallet) (kdf : KdfParams) (r : Keypair) (salt : String)
        (w' : Wallet) (art : EncryptedKeychain),
        w.encryptRecoveryData (some kdf) r salt = (w', .ok art) →
          art.accountId = Keypair.accountId r
            ∧ art.keychainData.payload
                = .json ⟨Keypair.accountId r, w.secretSeed⟩) := by
  refine ⟨?_, ?_, ?_⟩
  · intro email karg acc wid w h
    obtain ⟨hv, hacc⟩ := create_ok_elim h
    rw [hacc]
    exact hv
  · intro email karg acc wid w hv h
    have h1 := (create_ok_elim h).1
    rw [h1] at hv
    exact Bool.noConfusion hv
  · intro w kdf r salt w' art h
    rw [encryptRecoveryData_eq] at h
    by_cases hp : (Keypair.secret r).length = 0
    · simp only [Wallet.encrypt] at h
      rw [if_pos hp] at h
      injection h with h1 h2
      exact Except.noConfusion h2
    · rw [encrypt_str_eq _ _ _ _ hp] at h
      injection h with h1 h2
      injection h2 with h3
      subst h3
      exact ⟨rfl, rfl⟩

/-- Witness for the amended account-id theorem: its first conjunct applied to
a concretely constructed wallet. -/
theorem c3_account_id_validation_witness :
    Keypair.isValidPublicKey
      (Wallet.mk "e" kpA "GOTHER" none 0)._accountId = true :=
  c3_account_id_validation.1 (some "e") (.inst kpA) "GOTHER" .absent
    ⟨"e", kpA, "GOTHER", none, 0⟩ rfl

/-! ### C4: determinism of deriveId -/

/-- C4: `deriveId` is the pure composition of the credential-derivation
steps: its value is a function of nothing but (salt, email, password,
kdfParams), so any two calls on the same tuple agree. -/
theorem c4_deriveId_deterministic (email password : String) (kdf : KdfParams)
    (salt : String) :
    Wallet.deriveId email password kdf salt
      = hexFromBits (deriveWalletId (calculateMasterKey salt email password kdf)) :=
  rfl

/-! ### C5: wallet id overwritten by encrypt -/

/-- C5 counterexample: after a first successful `encrypt` the wallet id is
set, and a second `encrypt` under a different salt replaces it with a
different value — the stored wallet id is not immutable. -/
theorem c5_second_encrypt_counterexample :
    wA._id.isSome = true
      ∧ (wA.encrypt (some kdfEx) (.str "p") "B").1._id ≠ wA._id :=
  ⟨rfl, by decide⟩

/-- C5 (amended): every successful `encrypt` stores the wallet id newly
derived from the fresh salt and password onto the wallet, overwriting any
previously stored wallet id (wallet.js line 241); the id is only stable
across encrypts that happen to derive the same value. -/
theorem c5_encrypt_overwrites_id (w : Wallet) (kdf : KdfParams)
    (pw salt : String) (w' : Wallet) (art : EncryptedKeychain)
    (h : w.encrypt (some kdf) (.str pw) salt = (w', .ok art)) :
    w'._id = some (Wallet.deriveId w._email pw kdf salt) := by
  by_cases hp : pw.length = 0
  · simp only [Wallet.encrypt] at h
    rw [if_pos hp] at h
    injection h with h1 h2
    exact Except.noConfusion h2
  · rw [encrypt_str_eq _ _ _ _ hp] at h
    injection h with h1 h2
    rw [← h1]

/-- Witness for the overwrite theorem at the concrete first encryption. -/
theorem c5_encrypt_overwrites_id_witness :
    wA._id = some (Wallet.deriveId "e" "p" kdfEx "A") :=
  c5_encrypt_overwrites_id wEx kdfEx "p" "A" wA
    ((wEx.encrypt (some kdfEx) (.str "p") "A").2.toOption.getD artJunk) rfl

/-! ### C8: construction validation -/

theorem createChecked_iff (e : String) (kp : Keypair) (acc : String)
    (wid : WalletIdArg) :
    (∃ w, Wallet.createChecked e kp acc wid = .ok w)
      ↔ (Keypair.isValidPublicKey acc = true ∧ wid ≠ .nonStringTruthy) := by
  unfold Wallet.createChecked
  by_cases hv : Keypair.isValidPublicKey acc = true
  · simp only [hv, if_true]
    cases wid <;> simp
  · simp [hv]

/-- C8 counterexample: the constructor accepts an empty-string email (the
source checks only `isNil`, wallet.js line 25) and a wallet id that is a
string but contains no hexadecimal digits (the source checks only
`isString`, line 44) — so "any violation (including empty-string email and a
present walletId that is a string but not hex) fails fast" is false. -/
theorem c8_lenient_construction_counterexample :
    Wallet.create (some "") (.inst ⟨"S"⟩) "GS" (.str "zz")
        = .ok ⟨"", ⟨"S"⟩, "GS", some "zz", 0⟩
      ∧ ("" : String).length = 0
      ∧ ("zz" : String).data.all (fun c => !hexChars.contains c) = true :=
  ⟨rfl, rfl, by decide⟩

/-- C8 (amended): construction succeeds exactly when the email is non-nil
(empty strings allowed), the keypair argument resolves (present instance, or
a secret-seed string passing validation), the account id is syntactically
valid, and the walletId argument is not a truthy non-string (any string is
accepted; hexness is never checked).  Each violation fails with the
corresponding error before any wallet is produced. -/
theorem c8_construction_validation (email : Option String)
    (karg : KeypairArg) (acc : String) (wid : WalletIdArg) :
    (∃ w, Wallet.create email karg acc wid = .ok w)
      ↔ (email.isSome = true ∧ karg.resolves
          ∧ Keypair.isValidPublicKey acc = true ∧ wid ≠ .nonStringTruthy) := by
  cases email with
  | none => simp [Wallet.create]
  | some e =>
    cases karg with
    | nil => simp [Wallet.create, KeypairArg.resolves]
    | inst kp =>
      simp only [Wallet.create]
      rw [createChecked_iff]
      simp [KeypairArg.resolves]
    | seedStr s =>
      simp only [Wallet.create]
      by_cases hs : Keypair.isValidSecretKey s = true
      · simp only [hs, if_true]
        rw [createChecked_iff]
        simp [KeypairArg.resolves, hs]
      · simp [hs, KeypairArg.resolves]

/-- Witness: the construction characterization instantiated at a concrete
argument tuple. -/
theorem c8_construction_validation_witness :
    ∃ w, Wallet.create (some "e") (.inst ⟨"S"⟩) "GS" .absent = .ok w :=
  (c8_construction_validation (some "e") (.inst ⟨"S"⟩) "GS" .absent).mpr
    ⟨rfl, trivial, by decide, by decide⟩

/-! ### C9: failure atomicity -/

/-- C9: every failing operation leaves the wallet state unchanged: `encrypt`
with nil KDF parameters or a non-string or empty password, `signRequest`
(which never mutates at all), and `synchronizeTime` with a nil or
non-numeric timestamp all return the input state on their error paths. -/
theorem c9_failure_atomicity :
    (∀ (w : Wallet) (pw : JsVal) (salt : String),
        (w.encrypt none pw salt).1 = w)
    ∧ (∀ (w : Wallet) (kdf : KdfParams) (pw : JsVal) (salt : String),
        pw.isString = false → (w.encrypt (some kdf) pw salt).1 = w)
    ∧ (∀ (w : Wallet) (kdf : KdfParams) (salt : String),
        (w.encrypt (some kdf) (.str "") salt).1 = w)
    ∧ (∀ (w : Wallet) (uri : String) (now : ℚ),
        (w.signRequest uri now).1 = w)
    ∧ (∀ (w : Wallet) (ts : JsVal) (now : ℚ),
        ts.isNumber = false → (w.synchronizeTime ts now).1 = w) := by
  refine ⟨fun w pw salt => rfl, ?_, fun w kdf salt => rfl, ?_, ?_⟩
  · intro w kdf pw salt h
    cases pw with
    | nullv => rfl
    | num q => rfl
    | str s => simp [JsVal.isString] at h
  · intro w uri now
    unfold Wallet.signRequest
    split <;> rfl
  · intro w ts now h
    cases ts with
    | nullv => rfl
    | str s => rfl
    | num q => simp [JsVal.isNumber] at h

/-- Witness for failure atomicity at concrete failing calls. -/
theorem c9_failure_atomicity_witness :
    (wEx.encrypt (some kdfEx) .nullv "s").1 = wEx
      ∧ (wEx.synchronizeTime (.str "x") 0).1 = wEx :=
  ⟨c9_failure_atomicity.2.1 wEx kdfEx .nullv "s" rfl,
   c9_failure_atomicity.2.2.2.2 wEx (.str "x") 0 rfl⟩

/-! ### C10: the id getter -/

/-- C10 counterexample: a wallet id that is set but equal to the empty
string is accepted by the constructor, yet the getter still throws (the
source tests JS truthiness `!this._id`, wallet.js line 142), so "after
walletId is set, the getter returns it" is false for the empty string. -/
theorem c10_empty_id_counterexample :
    Wallet.create (some "e") (.inst ⟨"S"⟩) "GS" (.str "")
        = .ok ⟨"e", ⟨"S"⟩, "GS", some "", 0⟩
      ∧ Wallet.id ⟨"e", ⟨"S"⟩, "GS", some "", 0⟩
          = .error "This wallet has no wallet ID yet." :=
  ⟨rfl, rfl⟩

/-- C10 (amended): the id getter throws the error "This wallet has no wallet
ID yet." whenever the stored wallet id is absent or the empty string, and
returns the stored id whenever it is a non-empty string; `generate` produces
a wallet with an absent wallet id, so reading `id` on a fresh wallet
throws. -/
theorem c10_id_getter :
    (∀ w : Wallet, w._id = none →
        w.id = .error "This wallet has no wallet ID yet.")
    ∧ (∀ (w : Wallet) (s : String), w._id = some s → s ≠ "" → w.id = .ok s)
    ∧ (∀ (email : Option String) (kp : Keypair) (w : Wallet),
        Wallet.generate email kp = .ok w → w._id = none) := by
  refine ⟨?_, ?_, ?_⟩
  · intro w h
    unfold Wallet.id
    rw [h]
  · intro w s h hs
    unfold Wallet.id
    rw [h]
    simp [hs]
  · intro email kp w h
    cases email with
    | none => exact Except.noConfusion h
    | some e =>
      have h2 : Wallet.createChecked e kp (Keypair.accountId kp) .absent
          = .ok w := h
      unfold Wallet.createChecked at h2
      rw [if_pos (accountId_valid kp)] at h2
      injection h2 with h3
      exact h3 ▸ rfl

/-- Witness for the id getter theorem: a fresh wallet throws, and a set
non-empty id is returned. -/
theorem c10_id_getter_witness :
    wEx.id = .error "This wallet has no wallet ID yet."
      ∧ (⟨"e", ⟨"S"⟩, "GS", some "ab", 0⟩ : Wallet).id = .ok "ab" :=
  ⟨c10_id_getter.1 wEx rfl,
   c10_id_getter.2.1 ⟨"e", ⟨"S"⟩, "GS", some "ab", 0⟩ "ab" rfl (by decide)⟩

/-! ### C1 and C2: encryption round trips -/

theorem decrypt_encrypt (t : JText) (k : WalletKey) :
    decryptData (encryptData t k) k = .ok t := by
  simp [decryptData, encryptData]

/-- C1: for every wallet with a syntactically valid account id and every KDF
parameter set and non-empty password, if `encrypt` returns an artifact then
`fromEncrypted` on that artifact (same kdfParams, the artifact's salt, the
wallet's email, the same password) succeeds and yields a wallet whose
accountId, email and id equal the artifact's and whose keypair's secret
seed equals the original wallet's. -/
theorem c1_encrypt_fromEncrypted_roundtrip (w : Wallet) (kdf : KdfParams)
    (pw salt : String)
    (hacc : Keypair.isValidPublicKey w._accountId = true)
    (hpw : ¬ pw.length = 0)
    (w' : Wallet) (art : EncryptedKeychain)
    (henc : w.encrypt (some kdf) (.str pw) salt = (w', .ok art)) :
    ∃ w2, Wallet.fromEncrypted art.keychainData kdf art.salt w.email pw = .ok w2
      ∧ w2.accountId = art.accountId
      ∧ w2.email = art.email
      ∧ w2._id = some art.id
      ∧ w2.secretSeed = w.secretSeed := by
  rw [encrypt_str_eq _ _ _ _ hpw] at henc
  injection henc with h1 h2
  injection h2 with h3
  subst h3
  refine ⟨⟨w._email, w._keypair, w._accountId,
    some (hexFromBits (deriveWalletId (calculateMasterKey salt w._email pw kdf))),
    0⟩, ?_, rfl, rfl, rfl, rfl⟩
  show Wallet.fromEncrypted
      (encryptData (.json ⟨w._accountId, w._keypair.secret⟩)
        (deriveWalletKey (calculateMasterKey salt w._email pw kdf)))
      kdf salt w._email pw = _
  unfold Wallet.fromEncrypted
  simp only [decrypt_encrypt, jsonParseKeychain]
  show Wallet.createChecked w._email (Keypair.fromSecret w._keypair.secret)
      w._accountId
      (.str (hexFromBits (deriveWalletId (calculateMasterKey salt w._email pw kdf))))
      = _
  unfold Wallet.createChecked
  rw [if_pos hacc]
  rfl

/-- Witness: the round trip at the concrete example wallet and artifact. -/
theorem c1_encrypt_fromEncrypted_roundtrip_witness :
    ∃ w2, Wallet.fromEncrypted artA.keychainData kdfEx artA.salt wEx.email "p"
        = .ok w2
      ∧ w2.accountId = artA.accountId
      ∧ w2.email = artA.email
      ∧ w2._id = some artA.id
      ∧ w2.secretSeed = wEx.secretSeed :=
  c1_encrypt_fromEncrypted_roundtrip wEx kdfEx "p" "A" (by decide) (by decide)
    wA artA rfl

/-- C2: decrypting the artifact returned by `encryptRecoveryData` through
`fromEncrypted`, using the recovery keypair's own secret seed as the
password, yields a wallet whose secret seed is the original wallet's
primary seed (its accountId, however, is the recovery keypair's address). -/
theorem c2_recovery_decrypts_primary_seed (w : Wallet) (r : Keypair)
    (kdf : KdfParams) (salt : String)
    (hr : ¬ (Keypair.secret r).length = 0)
    (w' : Wallet) (art : EncryptedKeychain)
    (henc : w.encryptRecoveryData (some kdf) r salt = (w', .ok art)) :
    ∃ w2, Wallet.fromEncrypted art.keychainData kdf art.salt art.email
        (Keypair.secret r) = .ok w2
      ∧ w2.secretSeed = w.secretSeed
      ∧ w2.accountId = Keypair.accountId r
      ∧ w2._id = some art.id := by
  rw [encryptRecoveryData_eq] at henc
  rw [encrypt_str_eq _ _ _ _ hr] at henc
  injection henc with h1 h2
  injection h2 with h3
  subst h3
  refine ⟨⟨w._email, w._keypair, Keypair.accountId r,
    some (hexFromBits (deriveWalletId
      (calculateMasterKey salt w._email (Keypair.secret r) kdf))),
    0⟩, ?_, rfl, rfl, rfl⟩
  show Wallet.fromEncrypted
      (encryptData (.json ⟨Keypair.accountId r, w._keypair.secret⟩)
        (deriveWalletKey (calculateMasterKey salt w._email (Keypair.secret r) kdf)))
      kdf salt w._email (Keypair.secret r) = _
  unfold Wallet.fromEncrypted
  simp only [decrypt_encrypt, jsonParseKeychain]
  show Wallet.createChecked w._email (Keypair.fromSecret w._keypair.secret)
      (Keypair.accountId r)
      (.str (hexFromBits (deriveWalletId
        (calculateMasterKey salt w._email (Keypair.secret r) kdf))))
      = _
  unfold Wallet.createChecked
  rw [if_pos (accountId_valid r)]
  rfl

/-- Witness: the recovery round trip at the concrete example wallet. -/
theorem c2_recovery_decrypts_primary_seed_witness :
    ∃ w2, Wallet.fromEncrypted artR.keychainData kdfEx artR.salt artR.email
        (Keypair.secret rEx) = .ok w2
      ∧ w2.secretSeed = wEx.secretSeed
      ∧ w2.accountId = Keypair.accountId rEx
      ∧ w2._id = some artR.id :=
  c2_recovery_decrypts_primary_seed wEx rEx kdfEx "t" (by decide) wEx artR rfl

/-! ### C6: request signing -/

/-- C6 (amended): for a non-empty uri, `signRequest` returns headers whose
expiry is `⌊⌊now⌋ - clockOffset + 60⌋` — the clock reading is truncated to
whole seconds before the offset is subtracted and the final floor is taken
after adding the 60-second window — together with the wallet keypair's
public account id and the base64-encoded decorated signature over the hash
of the canonical payload binding the uri and that expiry; an empty uri
throws. -/
theorem c6_signRequest_headers (w : Wallet) (uri : String) (now : ℚ)
    (h : uri ≠ "") :
    (w.signRequest uri now).2
        = .ok ⟨intDecStr ⌊((⌊now⌋ : ℤ) : ℚ) - w._clockDiff + 60⌋,
               Keypair.accountId w._keypair,
               (w._keypair.signDecorated (hashOf (signatureBase uri
                 ⌊((⌊now⌋ : ℤ) : ℚ) - w._clockDiff + 60⌋))).toXDRbase64⟩
      ∧ (w.signRequest "" now).2 = .error "URI required." := by
  constructor
  · unfold Wallet.signRequest
    rw [if_neg h]
  · rfl

/-- Witness: the amended signing theorem applied at a concrete call. -/
theorem c6_signRequest_headers_witness :
    (wEx.signRequest "u" 0).2
        = .ok ⟨intDecStr ⌊((⌊(0 : ℚ)⌋ : ℤ) : ℚ) - wEx._clockDiff + 60⌋,
               Keypair.accountId wEx._keypair,
               (wEx._keypair.signDecorated (hashOf (signatureBase "u"
                 ⌊((⌊(0 : ℚ)⌋ : ℤ) : ℚ) - wEx._clockDiff + 60⌋))).toXDRbase64⟩
      ∧ (wEx.signRequest "" 0).2 = .error "URI required." :=
  c6_signRequest_headers wEx "u" 0 (by decide)

/-- C6 counterexample: with a fractional clock offset of 1/2 (reachable via
`synchronizeTime`) and a local clock reading of 10.9 s, the produced expiry
header is 69, while the spec formula `⌊now - clockOffset⌋ + 60` gives 70 —
the code floors the clock before subtracting the offset, the claim floors
after. -/
theorem c6_floor_order_counterexample :
    headerValidUntil (wHalf.signRequest "u" (109 / 10 : ℚ)).2
        = some (intDecStr 69)
      ∧ specValidUntil (109 / 10 : ℚ) wHalf._clockDiff = 70
      ∧ intDecStr 69 ≠ intDecStr 70 := by
  have hcd : wHalf._clockDiff = 1 / 2 := by
    show (21 / 2 : ℚ) - 10 = 1 / 2
    norm_num
  have h10 : (⌊(109 / 10 : ℚ)⌋ : ℤ) = 10 := by
    rw [Int.floor_eq_iff] <;> norm_num
  refine ⟨?_, ?_, by decide⟩
  · unfold Wallet.signRequest
    rw [if_neg (show ¬("u" : String) = "" by decide)]
    have h69 : (⌊((⌊(109 / 10 : ℚ)⌋ : ℤ) : ℚ) - wHalf._clockDiff + 60⌋ : ℤ) = 69 := by
      rw [hcd, h10, Int.floor_eq_iff] <;> norm_num
    simp only [headerValidUntil, h69]
  · rw [specValidUntil, hcd]
    have h104 : (⌊(109 / 10 - 1 / 2 : ℚ)⌋ : ℤ) = 10 := by
      rw [Int.floor_eq_iff] <;> norm_num
    rw [h104]
    decide
